import Mathlib

/-!
# Verification of the HEALIO hospital reconciliation and booking core

Shallow embedding of `src/components/HospitalFinder.tsx`:
the coordinate key (`toKey`, lines 51-52), the Overpass element
normalization, deduplication and chunked-upsert loop of
`syncHospitalsAround` (lines 107-217), and the appointment-creation
workflow `createAppointmentFor` (lines 220-316).

Modelling conventions:
* JavaScript numbers (coordinates) are modelled as exact rationals `ℚ`.
  `Number.prototype.toFixed(6)` is modelled per ECMA-262 on the exact
  value: a negative value is rendered as `"-"` followed by the rendering
  of its negation, and the non-negative value is rounded to the integer
  `n` of micro-units with ties picking the larger `n` (round half-up);
  the rounding is computed on the numerator/denominator pair with
  integer floor-division so that every definition evaluates by `decide`.
* A JavaScript `Map` is modelled as an association list
  `List (String × HospitalRow)`: `Map.set` overwrites the value in place
  for an existing key and appends a fresh key at the end, which is
  exactly the insertion-order semantics of `Map.prototype.values()`.
* Supabase calls are modelled by an environment record holding each
  call's outcome (`Except String …`); a `{ data, error }` result where
  the code checks `error` and falls back on `null` data is modelled by
  the corresponding `match`.
* Database ids are modelled as `String`; the JS falsiness test
  `!hospital_id` is modelled as `Option.isNone` (ids are assumed
  non-empty, per the store's contract).
-/

/-- Build a rational from an explicit reduced numerator/denominator pair.
Used only to write concrete coordinate literals in normal form. -/
def ratLit (n : ℤ) (d : ℕ) (h1 : d ≠ 0) (h2 : n.natAbs.Coprime d) : ℚ :=
  ⟨n, d, h1, h2⟩

/-- Round-half-up of `(n / d) * 10^6` for a denominator `d > 0`:
`⌊(n·10^6) / d + 1/2⌋ = ⌊(2·n·10^6 + d) / (2·d)⌋`, computed with integer
floor-division.  This is ECMA-262's "the integer closest to `x·10^f`,
ties picking the larger" for non-negative inputs. -/
def microRound (n : ℤ) (d : ℕ) : ℤ :=
  (2 * n * 1000000 + d).fdiv (2 * d)

/-- Truncation of `(n / d) * 10^6` toward zero (`d > 0`): the first six
decimal digits of the value, with its sign.  Two rationals "differ only
beyond the 6th decimal place" precisely when these agree. -/
def microTrunc (n : ℤ) (d : ℕ) : ℤ :=
  (n * 1000000).tdiv d

/-- Sign-and-first-six-digits of a rational: `q₁` and `q₂` have the same
decimal expansion through the 6th decimal place iff
`trunc6 q₁ = trunc6 q₂`. -/
def trunc6 (q : ℚ) : ℤ :=
  microTrunc q.num q.den

/-- Pad a digit string on the left with `'0'` to width 6 (the fractional
part of a `toFixed(6)` rendering). -/
def padLeft6 (s : String) : String :=
  String.mk (List.replicate (6 - s.length) '0') ++ s

/-- `toFixed(6)` of a non-negative rational: round half-up to
micro-units, then print `integer "." fraction`. -/
def fixed6Core (q : ℚ) : String :=
  let m : ℕ := (microRound q.num q.den).toNat
  toString (m / 1000000) ++ "." ++ padLeft6 (toString (m % 1000000))

/-- `Number(x).toFixed(6)` on an exact rational, per ECMA-262. -/
def fixed6 (q : ℚ) : String :=
  if q < 0 then "-" ++ fixed6Core (-q) else fixed6Core q

/-- The hospital record shape (`HospitalRow`, source lines 16-25). -/
structure HospitalRow where
  id : Option String := none
  name : String
  address : Option String := none
  latitude : ℚ
  longitude : ℚ
  phone : Option String := none
  specialities : Option String := none
  emergency_available : Bool := false
deriving DecidableEq

/-- `toKey` (source lines 51-52): join the `toFixed(6)` renderings of
latitude and longitude with `"|"`. -/
def toKey (h : HospitalRow) : String :=
  fixed6 h.latitude ++ "|" ++ fixed6 h.longitude

/-! ## The JavaScript `Map` used for dedup and merge -/

/-- `Map.set`: overwrite in place when the key is present, append at the
end otherwise. -/
def setKV (m : List (String × HospitalRow)) (k : String) (v : HospitalRow) :
    List (String × HospitalRow) :=
  match m with
  | [] => [(k, v)]
  | (k', v') :: rest => if k' = k then (k, v) :: rest else (k', v') :: setKV rest k v

/-- Insert a list of key-value entries into a map, in order. -/
def insEntries (m : List (String × HospitalRow)) (es : List (String × HospitalRow)) :
    List (String × HospitalRow) :=
  es.foldl (fun acc kv => setKV acc kv.1 kv.2) m

/-- First entry with the given key (the unique one, for maps with
no duplicate keys). -/
def lookupKV (m : List (String × HospitalRow)) (k : String) : Option HospitalRow :=
  (m.find? (fun kv => kv.1 = k)).map Prod.snd

/-- Value of the last entry of `es` carrying key `k`, if any. -/
def lastVal (es : List (String × HospitalRow)) (k : String) : Option HospitalRow :=
  es.foldl (fun acc kv => if kv.1 = k then some kv.2 else acc) none

/-- The last record of `l` whose `toKey` is `k`, if any ("last
occurrence wins"). -/
def lastWith (l : List HospitalRow) (k : String) : Option HospitalRow :=
  l.foldl (fun acc h => if toKey h = k then some h else acc) none

/-- Deduplication by rounded coordinates (source lines 163-167): fill a
`Map` keyed by `toKey` in input order — last one wins — and take its
values. -/
def dedupeRows (l : List HospitalRow) : List HospitalRow :=
  (insEntries [] (l.map (fun h => (toKey h, h)))).map Prod.snd

/-! ## The store side of the chunked upsert -/

/-- The upsert/insert payload (source lines 173-180 and 244-251): exactly
the six fields `name`, `address`, `latitude`, `longitude`, `phone`,
`specialities` — the emergency-availability flag is never sent. -/
structure HospitalPayload where
  name : String
  address : Option String
  latitude : ℚ
  longitude : ℚ
  phone : Option String
  specialities : Option String
deriving DecidableEq

/-- Build the payload sent to the store for one record. -/
def payloadOf (h : HospitalRow) : HospitalPayload :=
  { name := h.name, address := h.address, latitude := h.latitude,
    longitude := h.longitude, phone := h.phone, specialities := h.specialities }

/-- A row returned by the store ("representation" mode), as read by the
merge loop in source lines 197-207.  `emergency_available` may be absent
(`r.emergency_available ?? false`). -/
structure DbRow where
  id : String
  name : String
  address : Option String
  latitude : ℚ
  longitude : ℚ
  phone : Option String
  specialities : Option String
  emergency_available : Option Bool
deriving DecidableEq

/-- The key under which a returned row is merged (source line 198) —
textually the same computation as `toKey`. -/
def dbKey (r : DbRow) : String :=
  fixed6 r.latitude ++ "|" ++ fixed6 r.longitude

/-- The in-memory record built from a returned row (source lines
199-207): the store's data wins, `emergency_available` defaults to
`false` when the store did not return it. -/
def rowFromDb (r : DbRow) : HospitalRow :=
  { id := some r.id, name := r.name, address := r.address,
    latitude := r.latitude, longitude := r.longitude, phone := r.phone,
    specialities := r.specialities,
    emergency_available := r.emergency_available.getD false }

/-- Merge returned store rows into the running result list (source lines
192-210): rebuild a `Map` from the previous list keyed by `toKey`, then
overwrite with every returned row under its own key, and take the
values. -/
def mergeRows (prev : List HospitalRow) (rows : List DbRow) : List HospitalRow :=
  (insEntries (insEntries [] (prev.map (fun p => (toKey p, p))))
      (rows.map (fun r => (dbKey r, rowFromDb r)))).map Prod.snd

/-- Outcome of one chunk's upsert call: an error (`error` non-null), or
data that is either not an array (`ok none`) or an array of returned
rows (`ok (some rows)`). -/
inductive ChunkOutcome where
  | err (msg : String)
  | ok (data : Option (List DbRow))
deriving DecidableEq

/-- Split a list into consecutive chunks of size `n` (the loop
`for (i = 0; i < len; i += chunkSize) slice(i, i + chunkSize)`).
The list's length is structural fuel, so the definition reduces in the
kernel; one chunk is produced per step and each step drops `n ≥ 1`
elements, so the fuel never runs out on the inputs used. -/
def chunksOfSize (n : ℕ) : ℕ → List HospitalRow → List (List HospitalRow)
  | 0, _ => []
  | _, [] => []
  | Nat.succ fuel, l => l.take n :: chunksOfSize n fuel (l.drop n)

/-- The chunked upsert loop (source lines 171-212): on a chunk error,
record it and continue; on non-array data, do nothing; on returned rows,
merge them into the running result.  `outcomes k` is the store's
response to the `k`-th chunk. -/
def runChunks (outcomes : ℕ → ChunkOutcome) :
    List (List HospitalRow) → ℕ → List HospitalRow → List HospitalRow
  | [], _, st => st
  | _ :: cs, k, st =>
    match outcomes k with
    | ChunkOutcome.err _ => runChunks outcomes cs (k + 1) st
    | ChunkOutcome.ok none => runChunks outcomes cs (k + 1) st
    | ChunkOutcome.ok (some rows) => runChunks outcomes cs (k + 1) (mergeRows st rows)

/-- The payload batches issued by the loop, one upsert call per chunk
(source lines 172-180). -/
def upsertBatches (uniq : List HospitalRow) : List (List HospitalPayload) :=
  (chunksOfSize 200 uniq.length uniq).map (fun c => c.map payloadOf)

/-- The exposed result of one reconciliation run (source lines 171-216):
run the chunk loop from the result set `init` (empty at the start of a
fresh run), then apply the final fallback
`prev.length ? prev : uniqHospitals`. -/
def syncResult (init : List HospitalRow) (uniq : List HospitalRow)
    (outcomes : ℕ → ChunkOutcome) : List HospitalRow :=
  let afterLoop := runChunks outcomes (chunksOfSize 200 uniq.length uniq) 0 init
  if afterLoop = [] then uniq else afterLoop

/-! ## Normalization of raw Overpass elements (source lines 140-161) -/

/-- The tag fields read by the normalizer.  OSM tag values are strings;
`emergency` is kept as the raw tag value so that the JS double-negation
`!!el.tags?.emergency` (present and non-empty) can be modelled. -/
structure OsmTags where
  name : Option String := none
  addrFull : Option String := none
  addrStreet : Option String := none
  addrHousenumber : Option String := none
  addrCity : Option String := none
  description : Option String := none
  phone : Option String := none
  contactPhone : Option String := none
  speciality : Option String := none
  healthcare : Option String := none
  emergency : Option String := none
deriving DecidableEq

/-- A raw Overpass element: optional direct coordinates, optional
`center` coordinates (ways/relations), and tags. -/
structure RawElement where
  lat : Option ℚ := none
  lon : Option ℚ := none
  center : Option (ℚ × ℚ) := none
  tags : OsmTags := {}
deriving DecidableEq

/-- JS `||` on an optional string: an absent or empty string is falsy. -/
def truthyStr (o : Option String) : Option String :=
  match o with
  | none => none
  | some s => if s = "" then none else some s

/-- JS `a ?? b` on options (nullish coalescing). -/
def orElseOpt (a b : Option ℚ) : Option ℚ :=
  match a with
  | some x => some x
  | none => b

/-- Normalize one raw element (source lines 141-160): resolve the
coordinate from `lat`/`lon` or `center`, drop the element when either
resolved value is missing or zero (JS falsiness), then fill the fields
through their `||` fallback chains. -/
def normalizeElement (el : RawElement) : Option HospitalRow :=
  let latVal := orElseOpt el.lat (el.center.map Prod.fst)
  let lonVal := orElseOpt el.lon (el.center.map Prod.snd)
  match latVal, lonVal with
  | some la, some lo =>
    if la = 0 ∨ lo = 0 then none
    else
      let joined := String.intercalate ", "
        (([el.tags.addrStreet, el.tags.addrHousenumber, el.tags.addrCity].filterMap
            truthyStr))
      some
        { name := (truthyStr el.tags.name).getD "Unnamed Hospital",
          address :=
            match truthyStr el.tags.addrFull with
            | some a => some a
            | none =>
              match truthyStr (some joined) with
              | some a => some a
              | none => truthyStr el.tags.description,
          latitude := la,
          longitude := lo,
          phone :=
            match truthyStr el.tags.phone with
            | some p => some p
            | none => truthyStr el.tags.contactPhone,
          specialities :=
            match truthyStr el.tags.speciality with
            | some s => some s
            | none => truthyStr el.tags.healthcare,
          emergency_available :=
            match el.tags.emergency with
            | some s => s ≠ ""
            | none => false }
  | _, _ => none

/-- `json.elements.map(...).filter(Boolean)` (source lines 140-161). -/
def mappedRows (els : List RawElement) : List HospitalRow :=
  els.filterMap normalizeElement

/-! ## The appointment-creation workflow (source lines 220-316) -/

/-- The appointment insert payload (source lines 290-296). -/
structure ApptPayload where
  user_id : String
  hospital_id : Option String
  assessment_id : Option String
  notes : Option String
  status : String
deriving DecidableEq

/-- A store write attempted by the workflow. -/
inductive WriteEvent where
  | hospitalInsert (p : HospitalPayload)
  | apptInsert (p : ApptPayload)
deriving DecidableEq

/-- `true` iff the write list contains an appointment insert. -/
def hasApptWrite (ws : List WriteEvent) : Bool :=
  ws.any (fun w =>
    match w with
    | WriteEvent.apptInsert _ => true
    | WriteEvent.hospitalInsert _ => false)

/-- Outcomes of the five store/auth calls the workflow can make.
Each `{ data, error }` pair is one `Except`: `.error` is a non-null
`error` (with `null` data), `.ok` is the returned rows. -/
structure BookingEnv where
  findHospital : Except String (List String)
  insertHospital : Except String (List String)
  authUser : Except String (Option String)
  profileRows : Except String (List String)
  assessRows : Except String (List String)
  insertAppt : Except String Unit

/-- Step 1 (source lines 227-257): look the hospital up by exact
coordinates — a lookup error is only logged and treated as "no rows" —
and insert it when no id was resolved; an insert error is thrown.
Returns the store writes attempted and the resolved id (which the code
leaves unset when the insert returned no rows). -/
def step1 (env : BookingEnv) (h : HospitalRow) :
    List WriteEvent × Except String (Option String) :=
  let found : List String :=
    match env.findHospital with
    | Except.error _ => []
    | Except.ok rows => rows
  match found.head? with
  | some i => ([], Except.ok (some i))
  | none =>
    match env.insertHospital with
    | Except.error m =>
      ([WriteEvent.hospitalInsert (payloadOf h)],
        Except.error ("Failed to create hospital record: " ++ m))
    | Except.ok ins =>
      ([WriteEvent.hospitalInsert (payloadOf h)], Except.ok ins.head?)

/-- The per-hospital UI state touched by the workflow: note drafts and
processing flags keyed by `toKey`, the open-note index, and the status
message. -/
structure UiState where
  notesMap : List (String × String)
  openNoteIdx : Option ℕ
  processingMap : String → Bool
  message : Option String

/-- Result of one workflow invocation: the final UI state and the store
writes attempted. -/
structure BookingOutcome where
  state : UiState
  writes : List WriteEvent

/-- The success message set at source line 302. -/
def successMsg : String := "Appointment created (status: pending)."

/-- The `try` block of `createAppointmentFor` (source lines 225-309):
step 1 resolve-or-create, step 2 auth (`null` user is fatal), step 3
profile lookup (error or no row falls back to the raw user id), step 4
latest assessment (error or no row yields `null`), step 5 appointment
insert.  Returns the writes attempted and the thrown error, if any. -/
def bookingTry (env : BookingEnv) (h : HospitalRow) (st : UiState) :
    List WriteEvent × Except String Unit :=
  match step1 env h with
  | (ws, Except.error m) => (ws, Except.error m)
  | (ws, Except.ok hid) =>
    match env.authUser with
    | Except.error m => (ws, Except.error ("Auth fetch error: " ++ m))
    | Except.ok none => (ws, Except.error "User not authenticated")
    | Except.ok (some uid) =>
      let userUuid :=
        match env.profileRows with
        | Except.error _ => uid
        | Except.ok [] => uid
        | Except.ok (p :: _) => p
      let assessmentId : Option String :=
        match env.assessRows with
        | Except.error _ => none
        | Except.ok [] => none
        | Except.ok (a :: _) => some a
      let note : Option String := st.notesMap.lookup (toKey h)
      let payload : ApptPayload :=
        { user_id := userUuid, hospital_id := hid, assessment_id := assessmentId,
          notes := note, status := "pending" }
      match env.insertAppt with
      | Except.error m =>
        (ws ++ [WriteEvent.apptInsert payload],
          Except.error ("Appointment insert error: " ++ m))
      | Except.ok _ => (ws ++ [WriteEvent.apptInsert payload], Except.ok ())

/-- `createAppointmentFor` (source lines 220-316): set the processing
flag and clear the message, run the `try` block, set the outcome
message (success clears the note draft and the open-note editor), and
in `finally` reset the processing flag for this hospital's key. -/
def createAppointmentFor (env : BookingEnv) (h : HospitalRow) (st : UiState) :
    BookingOutcome :=
  let key := toKey h
  match bookingTry env h st with
  | (ws, Except.ok _) =>
    { state :=
        { notesMap := st.notesMap.filter (fun kv => kv.1 ≠ key),
          openNoteIdx := none,
          processingMap := fun k => if k = key then false else st.processingMap k,
          message := some successMsg },
      writes := ws }
  | (ws, Except.error m) =>
    { state :=
        { notesMap := st.notesMap,
          openNoteIdx := st.openNoteIdx,
          processingMap := fun k => if k = key then false else st.processingMap k,
          message := some ("Error creating appointment: " ++ m) },
      writes := ws }

/-! ## Map lemmas -/

/-- `Map.set` never returns an empty map. -/
theorem setKV_ne_nil (m : List (String × HospitalRow)) (k : String) (v : HospitalRow) :
    setKV m k v ≠ [] := by
  match m with
  | [] => simp [setKV]
  | (k', v') :: rest =>
    simp only [setKV]
    split <;> simp

theorem insEntries_nil (m : List (String × HospitalRow)) : insEntries m [] = m := rfl

theorem insEntries_cons (m : List (String × HospitalRow)) (kv : String × HospitalRow)
    (es : List (String × HospitalRow)) :
    insEntries m (kv :: es) = insEntries (setKV m kv.1 kv.2) es := rfl

/-- Inserting entries into a non-empty map keeps it non-empty. -/
theorem insEntries_ne_nil_left (es : List (String × HospitalRow)) :
    ∀ m : List (String × HospitalRow), m ≠ [] → insEntries m es ≠ [] := by
  induction es with
  | nil => intro m hm; simpa [insEntries_nil] using hm
  | cons kv es ih =>
    intro m _
    rw [insEntries_cons]
    exact ih _ (setKV_ne_nil m kv.1 kv.2)

/-- Inserting at least one entry makes the map non-empty. -/
theorem insEntries_ne_nil_right (m : List (String × HospitalRow))
    (es : List (String × HospitalRow)) (hes : es ≠ []) : insEntries m es ≠ [] := by
  match es with
  | [] => exact absurd rfl hes
  | kv :: es =>
    rw [insEntries_cons]
    exact insEntries_ne_nil_left es _ (setKV_ne_nil m kv.1 kv.2)

/-- Looking up the key just set yields the new value. -/
theorem lookupKV_setKV_self (m : List (String × HospitalRow)) (k : String)
    (v : HospitalRow) : lookupKV (setKV m k v) k = some v := by
  induction m with
  | nil => simp [setKV, lookupKV, List.find?]
  | cons kv rest ih =>
    by_cases hk : kv.1 = k
    · simp [setKV, hk, lookupKV, List.find?]
    · obtain ⟨k', v'⟩ := kv
      simp only at hk
      simp only [setKV, if_neg hk]
      simpa [lookupKV, List.find?, hk] using ih

/-- Setting one key leaves lookups of other keys unchanged. -/
theorem lookupKV_setKV_ne (m : List (String × HospitalRow)) (k : String)
    (v : HospitalRow) (k' : String) (hne : k' ≠ k) :
    lookupKV (setKV m k v) k' = lookupKV m k' := by
  induction m with
  | nil => simp [setKV, lookupKV, List.find?, Ne.symm hne]
  | cons kv rest ih =>
    by_cases hk : kv.1 = k
    · obtain ⟨k0, v0⟩ := kv
      simp only at hk
      subst hk
      simp [setKV, lookupKV, List.find?, Ne.symm hne]
    · obtain ⟨k0, v0⟩ := kv
      simp only at hk
      simp only [setKV, if_neg hk]
      by_cases hk' : k0 = k'
      · simp [lookupKV, List.find?, hk']
      · simpa [lookupKV, List.find?, hk'] using ih

/-- The keys after `Map.set`: unchanged when the key was present,
appended otherwise. -/
theorem keys_setKV (m : List (String × HospitalRow)) (k : String) (v : HospitalRow) :
    (setKV m k v).map Prod.fst =
      if k ∈ m.map Prod.fst then m.map Prod.fst else m.map Prod.fst ++ [k] := by
  induction m with
  | nil => simp [setKV]
  | cons kv rest ih =>
    by_cases hk : kv.1 = k
    · simp [setKV, hk]
    · simp only [setKV, if_neg hk, List.map_cons, List.mem_cons, ih]
      by_cases hmem : k ∈ rest.map Prod.fst
      · simp [hmem, Ne.symm hk]
      · simp [hmem, Ne.symm hk]

/-- `Map.set` preserves distinctness of keys. -/
theorem keys_nodup_setKV (m : List (String × HospitalRow)) (k : String)
    (v : HospitalRow) (hn : (m.map Prod.fst).Nodup) :
    ((setKV m k v).map Prod.fst).Nodup := by
  rw [keys_setKV]
  by_cases hmem : k ∈ m.map Prod.fst
  · simpa [hmem] using hn
  · simpa [hmem, List.nodup_append] using hn

/-- The key set after `Map.set` is the old key set plus the new key. -/
theorem keys_toFinset_setKV (m : List (String × HospitalRow)) (k : String)
    (v : HospitalRow) :
    ((setKV m k v).map Prod.fst).toFinset = insert k (m.map Prod.fst).toFinset := by
  rw [keys_setKV]
  by_cases hmem : k ∈ m.map Prod.fst
  · rw [if_pos hmem, Finset.insert_eq_self.mpr (List.mem_toFinset.mpr hmem)]
  · rw [if_neg hmem, List.toFinset_append]
    simp [Finset.union_comm, Finset.insert_eq]

/-- Every entry of `Map.set m k v` is an old entry or the new pair. -/
theorem mem_setKV (k : String) (v : HospitalRow) :
    ∀ (m : List (String × HospitalRow)) (kv' : String × HospitalRow),
      kv' ∈ setKV m k v → kv' ∈ m ∨ kv' = (k, v) := by
  intro m
  induction m with
  | nil => intro kv' hm; simpa [setKV] using hm
  | cons kv rest ih =>
    intro kv' hm
    obtain ⟨k0, v0⟩ := kv
    by_cases hk : k0 = k
    · have hset : setKV ((k0, v0) :: rest) k v = (k, v) :: rest := by
        simp [setKV, hk]
      rw [hset] at hm
      rcases List.mem_cons.mp hm with hm1 | hm1
      · exact Or.inr hm1
      · exact Or.inl (List.mem_cons_of_mem _ hm1)
    · have hset : setKV ((k0, v0) :: rest) k v = (k0, v0) :: setKV rest k v := by
        simp [setKV, hk]
      rw [hset] at hm
      rcases List.mem_cons.mp hm with hm1 | hm1
      · exact Or.inl (by simp [hm1])
      · rcases ih _ hm1 with hm2 | hm2
        · exact Or.inl (List.mem_cons_of_mem _ hm2)
        · exact Or.inr hm2

/-- Every entry after inserting `es` is an old entry or one of `es`. -/
theorem mem_insEntries (es : List (String × HospitalRow)) :
    ∀ (m : List (String × HospitalRow)) (kv' : String × HospitalRow),
      kv' ∈ insEntries m es → kv' ∈ m ∨ kv' ∈ es := by
  induction es with
  | nil => intro m kv' hm; exact Or.inl (by simpa [insEntries_nil] using hm)
  | cons kv es ih =>
    intro m kv' hm
    rw [insEntries_cons] at hm
    rcases ih _ _ hm with hm' | hm'
    · rcases mem_setKV _ _ _ _ hm' with hm'' | hm''
      · exact Or.inl hm''
      · exact Or.inr (by simp [hm''])
    · exact Or.inr (List.mem_cons_of_mem _ hm')

/-- Inserting entries preserves distinctness of keys. -/
theorem keys_nodup_insEntries (es : List (String × HospitalRow)) :
    ∀ m : List (String × HospitalRow), (m.map Prod.fst).Nodup →
      ((insEntries m es).map Prod.fst).Nodup := by
  induction es with
  | nil => intro m hn; simpa [insEntries_nil] using hn
  | cons kv es ih =>
    intro m hn
    rw [insEntries_cons]
    exact ih _ (keys_nodup_setKV m kv.1 kv.2 hn)

/-- The key set after inserting `es` is the union of the old keys and
the keys of `es`. -/
theorem keys_toFinset_insEntries (es : List (String × HospitalRow)) :
    ∀ m : List (String × HospitalRow),
      ((insEntries m es).map Prod.fst).toFinset =
        (m.map Prod.fst).toFinset ∪ (es.map Prod.fst).toFinset := by
  induction es with
  | nil => intro m; simp [insEntries_nil]
  | cons kv es ih =>
    intro m
    rw [insEntries_cons, ih, keys_toFinset_setKV]
    simp [Finset.insert_union, Finset.union_insert]

/-- With distinct keys, an entry is found by looking up its key. -/
theorem lookupKV_of_mem_nodup (m : List (String × HospitalRow))
    (hn : (m.map Prod.fst).Nodup) (k : String) (v : HospitalRow)
    (hm : (k, v) ∈ m) : lookupKV m k = some v := by
  induction m with
  | nil => simp at hm
  | cons kv rest ih =>
    rcases List.mem_cons.mp hm with hm' | hm'
    · simp [lookupKV, List.find?, ← hm']
    · have hk : kv.1 ≠ k := by
        intro hk
        have : k ∈ rest.map Prod.fst := List.mem_map.mpr ⟨(k, v), hm', rfl⟩
        rw [List.map_cons, hk] at hn
        exact (List.nodup_cons.mp hn).1 this
      have hrest : (rest.map Prod.fst).Nodup := by
        rw [List.map_cons] at hn
        exact (List.nodup_cons.mp hn).2
      simpa [lookupKV, List.find?, hk] using ih hrest hm'

/-- `a.orO b`: JS-style "first hit wins" on options. -/
def orO (a b : Option HospitalRow) : Option HospitalRow :=
  match a with
  | some v => some v
  | none => b

/-- Folding the "last match wins" accumulator from `acc` is the last
match of the list, falling back to `acc`. -/
theorem foldl_lastVal (k : String) (es : List (String × HospitalRow)) :
    ∀ acc : Option HospitalRow,
      es.foldl (fun a kv => if kv.1 = k then some kv.2 else a) acc =
        orO (lastVal es k) acc := by
  induction es with
  | nil => intro acc; simp [lastVal, orO]
  | cons kv es ih =>
    intro acc
    have hcons : lastVal (kv :: es) k =
        orO (lastVal es k) (if kv.1 = k then some kv.2 else none) := by
      simp only [lastVal, List.foldl_cons]
      exact ih _
    simp only [List.foldl_cons, hcons]
    rw [ih]
    cases hlv : lastVal es k with
    | some v => simp [orO]
    | none => by_cases hk : kv.1 = k <;> simp [orO, hk]

/-- Lookup after inserting `es`: the last entry of `es` with that key
wins, else the old binding. -/
theorem lookupKV_insEntries (es : List (String × HospitalRow)) :
    ∀ (m : List (String × HospitalRow)) (k : String),
      lookupKV (insEntries m es) k = orO (lastVal es k) (lookupKV m k) := by
  induction es with
  | nil => intro m k; simp [insEntries_nil, lastVal, orO]
  | cons kv es ih =>
    intro m k
    rw [insEntries_cons, ih]
    have hcons : lastVal (kv :: es) k =
        orO (lastVal es k) (if kv.1 = k then some kv.2 else none) := by
      simp only [lastVal, List.foldl_cons]
      exact foldl_lastVal k es _
    rw [hcons]
    cases hlv : lastVal es k with
    | some v => simp [orO]
    | none =>
      simp only [orO]
      by_cases hk : kv.1 = k
      · rw [hk, lookupKV_setKV_self]
        simp
      · rw [lookupKV_setKV_ne _ _ _ _ (Ne.symm hk), if_neg hk]

/-- `lastVal` over the entries built by the dedup loop is `lastWith`. -/
theorem lastVal_map_toKey (l : List HospitalRow) (k : String) :
    lastVal (l.map (fun h => (toKey h, h))) k = lastWith l k := by
  simp only [lastVal, lastWith, List.foldl_map]

/-- The dedup map holds exactly one record per distinct `toKey` of the
input. -/
theorem dedupeRows_length (l : List HospitalRow) :
    (dedupeRows l).length = ((l.map toKey).toFinset).card := by
  have hkeys : ((insEntries [] (l.map (fun h => (toKey h, h)))).map Prod.fst).toFinset =
      (l.map toKey).toFinset := by
    rw [keys_toFinset_insEntries]
    have hcomp : (Prod.fst ∘ fun h : HospitalRow => (toKey h, h)) = toKey := rfl
    rw [List.map_map, hcomp]
    simp
  have hnd : ((insEntries [] (l.map (fun h => (toKey h, h)))).map Prod.fst).Nodup :=
    keys_nodup_insEntries _ [] (by simp)
  calc (dedupeRows l).length
      = ((insEntries [] (l.map (fun h => (toKey h, h)))).map Prod.fst).length := by
        simp [dedupeRows]
    _ = ((insEntries [] (l.map (fun h => (toKey h, h)))).map Prod.fst).toFinset.card :=
        (List.toFinset_card_of_nodup hnd).symm
    _ = ((l.map toKey).toFinset).card := by rw [hkeys]

/-- Every record kept by dedup is the last input record with its key. -/
theorem dedupeRows_last_wins (l : List HospitalRow) (h' : HospitalRow)
    (hm : h' ∈ dedupeRows l) : lastWith l (toKey h') = some h' := by
  obtain ⟨⟨k0, v0⟩, hkv, hv⟩ := List.mem_map.mp hm
  simp only at hv
  have hk0 : k0 = toKey v0 := by
    rcases mem_insEntries _ [] _ hkv with hin | hin
    · simp at hin
    · obtain ⟨h0, _, heq⟩ := List.mem_map.mp hin
      have h1 : toKey h0 = k0 := congrArg Prod.fst heq
      have h2 : h0 = v0 := congrArg Prod.snd heq
      rw [← h1, h2]
  rw [hk0] at hkv
  have hnd : ((insEntries [] (l.map (fun h => (toKey h, h)))).map Prod.fst).Nodup :=
    keys_nodup_insEntries _ [] (by simp)
  have hlook : lookupKV (insEntries [] (l.map (fun h => (toKey h, h)))) (toKey v0) =
      some v0 :=
    lookupKV_of_mem_nodup _ hnd _ _ hkv
  rw [lookupKV_insEntries, lastVal_map_toKey] at hlook
  rw [← hv]
  cases hlw : lastWith l (toKey v0) with
  | some v => rw [hlw] at hlook; simpa [orO] using hlook
  | none => rw [hlw] at hlook; simp [orO, lookupKV] at hlook

/-- Every record in a merge result comes from the previous list or from
a returned store row. -/
theorem mem_mergeRows (prev : List HospitalRow) (rows : List DbRow)
    (h' : HospitalRow) (hm : h' ∈ mergeRows prev rows) :
    h' ∈ prev ∨ ∃ r, r ∈ rows ∧ h' = rowFromDb r := by
  obtain ⟨⟨k0, v0⟩, hkv, hv⟩ := List.mem_map.mp hm
  simp only at hv
  subst hv
  rcases mem_insEntries _ _ _ hkv with hin | hin
  · rcases mem_insEntries _ [] _ hin with hin' | hin'
    · simp at hin'
    · obtain ⟨p, hp, heq⟩ := List.mem_map.mp hin'
      have h2 : p = v0 := congrArg Prod.snd heq
      exact Or.inl (h2 ▸ hp)
  · obtain ⟨r, hr, heq⟩ := List.mem_map.mp hin
    exact Or.inr ⟨r, hr, (congrArg Prod.snd heq).symm⟩

/-- A merge result is non-empty whenever the previous list is. -/
theorem mergeRows_ne_nil_left (prev : List HospitalRow) (rows : List DbRow)
    (hp : prev ≠ []) : mergeRows prev rows ≠ [] := by
  have h0 : prev.map (fun p => (toKey p, p)) ≠ [] := by
    simpa using hp
  have h1 : insEntries [] (prev.map (fun p => (toKey p, p))) ≠ [] :=
    insEntries_ne_nil_right [] _ h0
  have h2 : insEntries (insEntries [] (prev.map (fun p => (toKey p, p))))
      (rows.map (fun r => (dbKey r, rowFromDb r))) ≠ [] :=
    insEntries_ne_nil_left _ _ h1
  simpa [mergeRows] using h2

/-- A merge result is non-empty whenever some row was returned. -/
theorem mergeRows_ne_nil_right (prev : List HospitalRow) (rows : List DbRow)
    (hr : rows ≠ []) : mergeRows prev rows ≠ [] := by
  have h0 : rows.map (fun r => (dbKey r, rowFromDb r)) ≠ [] := by
    simpa using hr
  have h2 : insEntries (insEntries [] (prev.map (fun p => (toKey p, p))))
      (rows.map (fun r => (dbKey r, rowFromDb r))) ≠ [] :=
    insEntries_ne_nil_right _ _ h0
  simpa [mergeRows] using h2

/-- "The store returned no rows": the chunk errored, its data was not
an array, or the array was empty. -/
def noRows : ChunkOutcome → Prop
  | ChunkOutcome.err _ => True
  | ChunkOutcome.ok none => True
  | ChunkOutcome.ok (some rows) => rows = []

/-- If every chunk yields no rows, the loop leaves an empty result set
empty. -/
theorem runChunks_nil (outcomes : ℕ → ChunkOutcome) :
    ∀ (cs : List (List HospitalRow)) (k : ℕ),
      (∀ j, j < cs.length → noRows (outcomes (k + j))) →
      runChunks outcomes cs k [] = [] := by
  intro cs
  induction cs with
  | nil => intro k _; rfl
  | cons c cs ih =>
    intro k hall
    have h0 : noRows (outcomes k) := by simpa using hall 0 (by simp)
    have hrest : ∀ j, j < cs.length → noRows (outcomes (k + 1 + j)) := by
      intro j hj
      have hj1 := hall (j + 1) (by simpa using Nat.succ_lt_succ hj)
      have harith : k + (j + 1) = k + 1 + j := by omega
      rwa [harith] at hj1
    cases ho : outcomes k with
    | err m =>
      simp only [runChunks, ho]
      exact ih (k + 1) hrest
    | ok data =>
      cases data with
      | none =>
        simp only [runChunks, ho]
        exact ih (k + 1) hrest
      | some rows =>
        rw [ho] at h0
        have hrows : rows = [] := h0
        subst hrows
        simp only [runChunks, ho]
        have hmerge : mergeRows [] ([] : List DbRow) = [] := rfl
        rw [hmerge]
        exact ih (k + 1) hrest

/-- Unfolding the loop over exactly three chunks where the second fails:
the first and third chunks' returned rows are merged in order. -/
theorem runChunks_three (outcomes : ℕ → ChunkOutcome) (c1 c2 c3 : List HospitalRow)
    (rows1 rows3 : List DbRow) (e : String) (st : List HospitalRow)
    (h0 : outcomes 0 = ChunkOutcome.ok (some rows1))
    (h1 : outcomes 1 = ChunkOutcome.err e)
    (h2 : outcomes 2 = ChunkOutcome.ok (some rows3)) :
    runChunks outcomes [c1, c2, c3] 0 st = mergeRows (mergeRows st rows1) rows3 := by
  simp only [runChunks, h0, h1, h2]

/-- The signed 6-decimal rounding that `toFixed(6)` performs: sign
first, then round half-up on the absolute value. -/
def round6 (q : ℚ) : ℤ :=
  if q < 0 then -(microRound (-q).num (-q).den) else microRound q.num q.den

/-- `toFixed(6)` renders equal strings for values with the same sign
side and the same signed rounding. -/
theorem fixed6_congr (x y : ℚ) (hsign : x < 0 ↔ y < 0)
    (hround : round6 x = round6 y) : fixed6 x = fixed6 y := by
  by_cases hx : x < 0
  · have hy : y < 0 := hsign.mp hx
    have hmr : microRound (-x).num (-x).den = microRound (-y).num (-y).den := by
      simp only [round6, if_pos hx, if_pos hy, neg_inj] at hround
      exact hround
    simp only [fixed6, if_pos hx, if_pos hy, fixed6Core, hmr]
  · have hy : ¬y < 0 := fun h => hx (hsign.mpr h)
    have hmr : microRound x.num x.den = microRound y.num y.den := by
      simp only [round6, if_neg hx, if_neg hy] at hround
      exact hround
    simp only [fixed6, if_neg hx, if_neg hy, fixed6Core, hmr]

/-! ## Claim C3: key tolerance -/

/-- 40.0000004 = 100000001/2500000. -/
def coordA : ℚ := ratLit 100000001 2500000 (by decide) (by decide)

/-- 40.0000006 = 200000003/5000000. -/
def coordB : ℚ := ratLit 200000003 5000000 (by decide) (by decide)

/-- -73. -/
def lonW : ℚ := ratLit (-73) 1 (by decide) (by decide)

/-- The claim as stated: coordinates that agree through the 6th decimal
place (equal sign-and-truncation) always produce equal keys, and dedup
collapses the two records. -/
def claimC3 : Prop :=
  ∀ p q : HospitalRow,
    trunc6 p.latitude = trunc6 q.latitude →
    trunc6 p.longitude = trunc6 q.longitude →
    toKey p = toKey q ∧ dedupeRows [p, q] = [q]

def cexP : HospitalRow := { name := "P", latitude := coordA, longitude := lonW }

def cexQ : HospitalRow := { name := "Q", latitude := coordB, longitude := lonW }

/-- C3 (counterexample): latitudes 40.0000004 and 40.0000006 agree
through the 6th decimal place (both truncate to 40.000000) but
`toFixed(6)` rounds them to "40.000000" and "40.000001", so the keys
differ and dedup keeps both records — the claim is false because the
key rounds rather than truncates. -/
theorem toKey_truncation_claim_false : ¬claimC3 := by
  intro hc
  have hk := (hc cexP cexQ (by decide) rfl).1
  exact absurd hk (by decide)

/-- C3 (amended): two coordinate pairs collapse to the same key when
each coordinate pair lies on the same side of zero and rounds (half-up
on the absolute value, the `toFixed(6)` rounding) to the same 6-decimal
value; then the keys are equal and dedup keeps only the last record. -/
theorem toKey_round_collapse (p q : HospitalRow)
    (hslat : p.latitude < 0 ↔ q.latitude < 0)
    (hslon : p.longitude < 0 ↔ q.longitude < 0)
    (hrlat : round6 p.latitude = round6 q.latitude)
    (hrlon : round6 p.longitude = round6 q.longitude) :
    toKey p = toKey q ∧ dedupeRows [p, q] = [q] := by
  have hk : toKey p = toKey q := by
    unfold toKey
    rw [fixed6_congr _ _ hslat hrlat, fixed6_congr _ _ hslon hrlon]
  refine ⟨hk, ?_⟩
  simp [dedupeRows, insEntries, setKV, hk]

/-- 40.0000001 = 400000001/10000000. -/
def coordC : ℚ := ratLit 400000001 10000000 (by decide) (by decide)

/-- 40.0000002 = 200000001/5000000. -/
def coordD : ℚ := ratLit 200000001 5000000 (by decide) (by decide)

def wP : HospitalRow := { name := "P", latitude := coordC, longitude := lonW }

def wQ : HospitalRow := { name := "Q", latitude := coordD, longitude := lonW }

/-- C3 (witness): 40.0000001 and 40.0000002 both round to 40.000000, so
the keys agree and dedup keeps the last record. -/
theorem toKey_round_collapse_witness :
    (wP.latitude < 0 ↔ wQ.latitude < 0) ∧
    round6 wP.latitude = round6 wQ.latitude ∧
    (toKey wP = toKey wQ ∧ dedupeRows [wP, wQ] = [wQ]) :=
  ⟨by decide, by decide,
    toKey_round_collapse wP wQ (by decide) (by decide) (by decide) (by decide)⟩

/-! ## Claim C6: dedup counts and last-occurrence-wins -/

/-- C6: deduplicating `l` yields exactly one record per distinct
`CoordinateKey` of `l`, and every kept record is the last input record
carrying its key. -/
theorem dedupe_count_and_last_wins (l : List HospitalRow) :
    (dedupeRows l).length = ((l.map toKey).toFinset).card ∧
    ∀ h', h' ∈ dedupeRows l → lastWith l (toKey h') = some h' :=
  ⟨dedupeRows_length l, fun h' hm => dedupeRows_last_wins l h' hm⟩

def dupA : HospitalRow := { name := "A", latitude := 7, longitude := 8 }

def dupB : HospitalRow := { name := "B", latitude := 7, longitude := 8 }

/-- C6 (witness): two records with equal coordinates dedupe to one
record, and the kept record is the later one. -/
theorem dedupe_count_and_last_wins_witness :
    (dedupeRows [dupA, dupB]).length = (([dupA, dupB].map toKey).toFinset).card ∧
    lastWith [dupA, dupB] (toKey dupB) = some dupB :=
  ⟨(dedupe_count_and_last_wins [dupA, dupB]).1,
    (dedupe_count_and_last_wins [dupA, dupB]).2 dupB (by decide)⟩

/-! ## Claim C4: end-to-end normalize / dedupe / reconcile example -/

/-- 40.000001 = 40000001/1000000. -/
def coordE : ℚ := ratLit 40000001 1000000 (by decide) (by decide)

/-- -73.000001 = -73000001/1000000. -/
def coordF : ℚ := ratLit (-73000001) 1000000 (by decide) (by decide)

/-- `{lat:40.0, lon:-73.0, tags:{name:"A"}}`. -/
def elA : RawElement :=
  { lat := some 40, lon := some lonW, tags := { name := some "A" } }

/-- `{center:{lat:40.000001, lon:-73.000001}, tags:{name:"B"}}`. -/
def elB : RawElement :=
  { center := some (coordE, coordF), tags := { name := some "B" } }

/-- The claim as stated: the two elements normalize to 2 POIs, dedupe to
exactly 1 POI named "B", and reconcile as one upsert of one row. -/
def claimC4 : Prop :=
  (mappedRows [elA, elB]).length = 2 ∧
  (dedupeRows (mappedRows [elA, elB])).length = 1 ∧
  (dedupeRows (mappedRows [elA, elB])).map (fun h => h.name) = ["B"] ∧
  (upsertBatches (dedupeRows (mappedRows [elA, elB]))).map List.length = [1]

/-- C4 (counterexample): the claim is false — 40.000001 differs from
40.0 in the 6th decimal place itself, so `toFixed(6)` gives the two
records different keys ("40.000000|-73.000000" vs
"40.000001|-73.000001") and dedup keeps both; the single upsert carries
two rows, not one. -/
theorem e2e_dedupe_claim_false : ¬claimC4 := by
  unfold claimC4
  decide

/-- The normalized record for `elA`. -/
def recA : HospitalRow :=
  { name := "A", latitude := 40, longitude := lonW }

/-- The normalized record for `elB`. -/
def recB : HospitalRow :=
  { name := "B", latitude := coordE, longitude := coordF }

/-- C4 (amended): the two elements normalize to 2 POIs, the keys differ
(the coordinates differ in the 6th decimal place, not beyond it) so
dedup keeps both, and reconciliation issues a single chunk upsert
containing the two rows. -/
theorem e2e_two_rows_upserted :
    mappedRows [elA, elB] = [recA, recB] ∧
    dedupeRows (mappedRows [elA, elB]) = [recA, recB] ∧
    upsertBatches (dedupeRows (mappedRows [elA, elB])) =
      [[payloadOf recA, payloadOf recB]] := by decide

/-! ## Claims C2, C7, C8, C10: the booking workflow -/

/-- Step 1 never attempts an appointment insert. -/
theorem step1_no_appt (env : BookingEnv) (h : HospitalRow) :
    hasApptWrite (step1 env h).1 = false := by
  cases hf : env.findHospital with
  | error e =>
    cases hi : env.insertHospital <;> simp [step1, hasApptWrite, hf, hi]
  | ok rows =>
    cases rows with
    | nil => cases hi : env.insertHospital <;> simp [step1, hasApptWrite, hf, hi]
    | cons a as => simp [step1, hasApptWrite, hf]

def st0 : UiState :=
  { notesMap := [], openNoteIdx := none, processingMap := fun _ => false,
    message := none }

def hospW : HospitalRow := { name := "W", latitude := 10, longitude := 20 }

/-- The claim as stated: with no authenticated user, the workflow
reports the authentication error and performs no store write at all. -/
def claimC2 : Prop :=
  ∀ (env : BookingEnv) (h : HospitalRow) (st : UiState),
    env.authUser = Except.ok none →
    (createAppointmentFor env h st).writes = [] ∧
    (createAppointmentFor env h st).state.message =
      some "Error creating appointment: User not authenticated"

def envNoAuthInsert : BookingEnv :=
  { findHospital := Except.ok [], insertHospital := Except.ok ["h1"],
    authUser := Except.ok none, profileRows := Except.ok [],
    assessRows := Except.ok [], insertAppt := Except.ok () }

/-- C2 (counterexample): the step-1 resolve-or-create runs before the
auth check, so when the hospital is not yet stored the workflow inserts
the hospital row first and only then aborts on the missing user — the
write list is not empty. -/
theorem booking_auth_no_writes_claim_false : ¬claimC2 := by
  intro hc
  have hw := (hc envNoAuthInsert hospW st0 rfl).1
  exact absurd hw (by decide)

/-- C2 (amended): with no authenticated user and a step-1 that did not
itself throw, the workflow aborts reporting "User not authenticated"
and performs no appointment insert; its only store writes are the
step-1 writes (possibly one hospital insert). -/
theorem booking_auth_aborts_before_booking_write (env : BookingEnv)
    (h : HospitalRow) (st : UiState) (ws : List WriteEvent) (hid : Option String)
    (hauth : env.authUser = Except.ok none)
    (hstep1 : step1 env h = (ws, Except.ok hid)) :
    (createAppointmentFor env h st).state.message =
      some "Error creating appointment: User not authenticated" ∧
    (createAppointmentFor env h st).writes = ws ∧
    hasApptWrite (createAppointmentFor env h st).writes = false := by
  have hbt : bookingTry env h st = (ws, Except.error "User not authenticated") := by
    unfold bookingTry
    rw [hstep1, hauth]
  have hws : (step1 env h).1 = ws := by rw [hstep1]
  refine ⟨?_, ?_, ?_⟩
  · unfold createAppointmentFor
    rw [hbt]
    exact rfl
  · unfold createAppointmentFor
    rw [hbt]
  · unfold createAppointmentFor
    rw [hbt]
    have hshow : hasApptWrite ws = false := by
      rw [← hws]
      exact step1_no_appt env h
    exact hshow


/-- C2 (witness): concrete run — hospital absent, insert succeeds, user
absent: auth error surfaced, one hospital insert, no appointment
insert. -/
theorem booking_auth_aborts_before_booking_write_witness :
    envNoAuthInsert.authUser = Except.ok none ∧
    step1 envNoAuthInsert hospW =
      ([WriteEvent.hospitalInsert (payloadOf hospW)], Except.ok (some "h1")) ∧
    ((createAppointmentFor envNoAuthInsert hospW st0).state.message =
        some "Error creating appointment: User not authenticated" ∧
      (createAppointmentFor envNoAuthInsert hospW st0).writes =
        [WriteEvent.hospitalInsert (payloadOf hospW)] ∧
      hasApptWrite (createAppointmentFor envNoAuthInsert hospW st0).writes = false) :=
  ⟨rfl, rfl,
    booking_auth_aborts_before_booking_write envNoAuthInsert hospW st0
      [WriteEvent.hospitalInsert (payloadOf hospW)] (some "h1") rfl rfl⟩

/-- C10: after every terminating invocation of the workflow — success or
abort at any step — the processing flag stored under the hospital's
`CoordinateKey` is false (the `finally` block always resets it). -/
theorem booking_processing_flag_cleared (env : BookingEnv) (h : HospitalRow)
    (st : UiState) :
    (createAppointmentFor env h st).state.processingMap (toKey h) = false := by
  unfold createAppointmentFor
  rcases hbt : bookingTry env h st with ⟨ws, res⟩
  cases res with
  | ok u => simp [hbt]
  | error m => simp [hbt]

/-! ### Claim C7: which step failures abort the workflow -/

/-- The claim as stated, split by failing step: (1) a step-1 coordinate
lookup failure aborts the run; (2) a step-1 create failure surfaces its
message with no booking write; (3) a step-2 auth fetch failure surfaces
its message with no booking write; (4) a step-5 booking insert failure
surfaces its message. -/
def claimC7 : Prop :=
  ∀ (env : BookingEnv) (h : HospitalRow) (st : UiState),
    ((∃ e, env.findHospital = Except.error e) →
      (createAppointmentFor env h st).state.message ≠ some successMsg) ∧
    (∀ e, env.findHospital = Except.ok [] → env.insertHospital = Except.error e →
      (createAppointmentFor env h st).state.message =
        some ("Error creating appointment: Failed to create hospital record: " ++ e) ∧
      hasApptWrite (createAppointmentFor env h st).writes = false) ∧
    (∀ e ws hid, step1 env h = (ws, Except.ok hid) →
      env.authUser = Except.error e →
      (createAppointmentFor env h st).state.message =
        some ("Error creating appointment: Auth fetch error: " ++ e) ∧
      hasApptWrite (createAppointmentFor env h st).writes = false) ∧
    (∀ e ws hid uid, step1 env h = (ws, Except.ok hid) →
      env.authUser = Except.ok (some uid) → env.insertAppt = Except.error e →
      (createAppointmentFor env h st).state.message =
        some ("Error creating appointment: Appointment insert error: " ++ e))

def envFindFails : BookingEnv :=
  { findHospital := Except.error "lookup timeout",
    insertHospital := Except.ok ["h9"], authUser := Except.ok (some "user-1"),
    profileRows := Except.ok [], assessRows := Except.ok [],
    insertAppt := Except.ok () }

/-- C7 (counterexample): a failing step-1 coordinate lookup does not
abort the workflow — the error is only logged, the lookup is treated as
"no rows", the insert path runs, and the workflow completes with the
success message. -/
theorem booking_step_failures_claim_false : ¬claimC7 := by
  intro hc
  have h1 := (hc envFindFails hospW st0).1 ⟨"lookup timeout", rfl⟩
  exact h1 (by decide)


/-- The workflow's writes are exactly the writes of its `try` block. -/
theorem createAppointmentFor_writes (env : BookingEnv) (h : HospitalRow)
    (st : UiState) :
    (createAppointmentFor env h st).writes = (bookingTry env h st).1 := by
  unfold createAppointmentFor
  rcases hbt : bookingTry env h st with ⟨ws, res⟩
  cases res <;> simp [hbt]

/-- Every step-1 write is among the `try` block's writes. -/
theorem step1_writes_subset (env : BookingEnv) (h : HospitalRow) (st : UiState)
    (w : WriteEvent) (hw : w ∈ (step1 env h).1) : w ∈ (bookingTry env h st).1 := by
  unfold bookingTry
  rcases hs : step1 env h with ⟨ws, res⟩
  rw [hs] at hw
  cases res with
  | error m => exact hw
  | ok hid =>
    cases hau : env.authUser with
    | error m => exact hw
    | ok ou =>
      cases ou with
      | none => exact hw
      | some uid =>
        cases hia : env.insertAppt with
        | error m => exact List.mem_append_left _ hw
        | ok u => exact List.mem_append_left _ hw

/-- C7 (amended): step-1 create failures, step-2 auth failures and
step-5 booking-insert failures abort the workflow and surface their
message (steps 1 and 2 failures happen before any booking write), but a
step-1 coordinate lookup failure does not abort: it is only logged and
falls through to the insert path, which attempts the hospital insert. -/
theorem booking_fatal_steps_abort (env : BookingEnv) (h : HospitalRow)
    (st : UiState) :
    (∀ e, env.findHospital = Except.ok [] → env.insertHospital = Except.error e →
      (createAppointmentFor env h st).state.message =
        some ("Error creating appointment: Failed to create hospital record: " ++ e) ∧
      hasApptWrite (createAppointmentFor env h st).writes = false) ∧
    (∀ e ws hid, step1 env h = (ws, Except.ok hid) →
      env.authUser = Except.error e →
      (createAppointmentFor env h st).state.message =
        some ("Error creating appointment: Auth fetch error: " ++ e) ∧
      hasApptWrite (createAppointmentFor env h st).writes = false) ∧
    (∀ e ws hid uid, step1 env h = (ws, Except.ok hid) →
      env.authUser = Except.ok (some uid) → env.insertAppt = Except.error e →
      (createAppointmentFor env h st).state.message =
        some ("Error creating appointment: Appointment insert error: " ++ e)) ∧
    (∀ e, env.findHospital = Except.error e →
      WriteEvent.hospitalInsert (payloadOf h) ∈ (createAppointmentFor env h st).writes) := by
  refine ⟨?_, ?_, ?_, ?_⟩
  · intro e hf hi
    have hbt : bookingTry env h st =
        ([WriteEvent.hospitalInsert (payloadOf h)],
          Except.error ("Failed to create hospital record: " ++ e)) := by
      unfold bookingTry step1
      rw [hf, hi]
      rfl
    constructor
    · unfold createAppointmentFor
      rw [hbt]
      show some ("Error creating appointment: " ++
          ("Failed to create hospital record: " ++ e)) =
        some ("Error creating appointment: Failed to create hospital record: " ++ e)
      rw [← String.append_assoc]
      rfl
    · unfold createAppointmentFor
      rw [hbt]
      exact rfl
  · intro e ws hid hstep1 hauth
    have hbt : bookingTry env h st =
        (ws, Except.error ("Auth fetch error: " ++ e)) := by
      unfold bookingTry
      rw [hstep1, hauth]
    constructor
    · unfold createAppointmentFor
      rw [hbt]
      show some ("Error creating appointment: " ++ ("Auth fetch error: " ++ e)) =
        some ("Error creating appointment: Auth fetch error: " ++ e)
      rw [← String.append_assoc]
      rfl
    · unfold createAppointmentFor
      rw [hbt]
      have hws : (step1 env h).1 = ws := by rw [hstep1]
      have hshow : hasApptWrite ws = false := by
        rw [← hws]
        exact step1_no_appt env h
      exact hshow
  · intro e ws hid uid hstep1 hauth hia
    unfold createAppointmentFor bookingTry
    rw [hstep1, hauth, hia]
    show some ("Error creating appointment: " ++ ("Appointment insert error: " ++ e)) =
      some ("Error creating appointment: Appointment insert error: " ++ e)
    rw [← String.append_assoc]
    rfl
  · intro e hf
    have hws : (step1 env h).1 = [WriteEvent.hospitalInsert (payloadOf h)] := by
      unfold step1
      rw [hf]
      cases hi : env.insertHospital <;> rfl
    have hmem : WriteEvent.hospitalInsert (payloadOf h) ∈ (step1 env h).1 := by
      rw [hws]
      simp
    rw [createAppointmentFor_writes]
    exact step1_writes_subset env h st _ hmem

def envInsertFails : BookingEnv :=
  { findHospital := Except.ok [], insertHospital := Except.error "db down",
    authUser := Except.ok (some "user-1"), profileRows := Except.ok [],
    assessRows := Except.ok [], insertAppt := Except.ok () }

def envAuthFails : BookingEnv :=
  { findHospital := Except.ok ["h3"], insertHospital := Except.ok [],
    authUser := Except.error "network down", profileRows := Except.ok [],
    assessRows := Except.ok [], insertAppt := Except.ok () }

def envApptFails : BookingEnv :=
  { findHospital := Except.ok ["h3"], insertHospital := Except.ok [],
    authUser := Except.ok (some "user-2"), profileRows := Except.ok [],
    assessRows := Except.ok [], insertAppt := Except.error "constraint violation" }

/-- C7 (witness): concrete runs for each fatal step and for the
non-fatal lookup failure. -/
theorem booking_fatal_steps_abort_witness :
    ((createAppointmentFor envInsertFails hospW st0).state.message =
        some "Error creating appointment: Failed to create hospital record: db down" ∧
      hasApptWrite (createAppointmentFor envInsertFails hospW st0).writes = false) ∧
    ((createAppointmentFor envAuthFails hospW st0).state.message =
        some "Error creating appointment: Auth fetch error: network down" ∧
      hasApptWrite (createAppointmentFor envAuthFails hospW st0).writes = false) ∧
    (createAppointmentFor envApptFails hospW st0).state.message =
      some "Error creating appointment: Appointment insert error: constraint violation" ∧
    WriteEvent.hospitalInsert (payloadOf hospW) ∈
      (createAppointmentFor envFindFails hospW st0).writes :=
  ⟨(booking_fatal_steps_abort envInsertFails hospW st0).1 "db down" rfl rfl,
    (booking_fatal_steps_abort envAuthFails hospW st0).2.1 "network down" []
      (some "h3") rfl rfl,
    (booking_fatal_steps_abort envApptFails hospW st0).2.2.1 "constraint violation"
      [] (some "h3") "user-2" rfl rfl rfl,
    (booking_fatal_steps_abort envFindFails hospW st0).2.2.2 "lookup timeout" rfl⟩

/-! ### Claim C8: profile and assessment lookups degrade silently -/

/-- The user reference the workflow resolves (source lines 266-273):
the first profile row's id, or — when the lookup errors or returns no
row — the raw user id. -/
def resolvedUserRef (env : BookingEnv) (uid : String) : String :=
  match env.profileRows with
  | Except.error _ => uid
  | Except.ok [] => uid
  | Except.ok (p :: _) => p

/-- The assessment reference the workflow resolves (source lines
276-284): the most recent assessment's id, or — when the lookup errors
or returns no row — null. -/
def resolvedAssessmentRef (env : BookingEnv) : Option String :=
  match env.assessRows with
  | Except.error _ => none
  | Except.ok [] => none
  | Except.ok (a :: _) => some a

/-- C8: with an authenticated user and a non-throwing step 1 — and with
no constraint on either lookup — the workflow always proceeds to the
booking insert with the resolved references, and reports success when
that insert succeeds (so neither lookup outcome aborts or surfaces a
message); independently, a profile lookup that errors or returns no row
resolves to the raw user id, and an assessment lookup that errors or
returns no row resolves to a null reference. -/
theorem booking_lookup_fallbacks (env : BookingEnv) (h : HospitalRow)
    (st : UiState) (uid : String) (ws : List WriteEvent) (hid : Option String)
    (hauth : env.authUser = Except.ok (some uid))
    (hstep1 : step1 env h = (ws, Except.ok hid)) :
    (createAppointmentFor env h st).writes =
      ws ++ [WriteEvent.apptInsert
        { user_id := resolvedUserRef env uid, hospital_id := hid,
          assessment_id := resolvedAssessmentRef env,
          notes := st.notesMap.lookup (toKey h), status := "pending" }] ∧
    ((env.profileRows = Except.ok [] ∨ ∃ e, env.profileRows = Except.error e) →
      resolvedUserRef env uid = uid) ∧
    ((env.assessRows = Except.ok [] ∨ ∃ e, env.assessRows = Except.error e) →
      resolvedAssessmentRef env = none) ∧
    (env.insertAppt = Except.ok () →
      (createAppointmentFor env h st).state.message = some successMsg) := by
  have hbt : ∀ res : Except String Unit, env.insertAppt = res →
      bookingTry env h st =
        (ws ++ [WriteEvent.apptInsert
          { user_id := resolvedUserRef env uid, hospital_id := hid,
            assessment_id := resolvedAssessmentRef env,
            notes := st.notesMap.lookup (toKey h), status := "pending" }],
          match res with
          | Except.error m => Except.error ("Appointment insert error: " ++ m)
          | Except.ok _ => Except.ok ()) := by
    intro res hres
    unfold bookingTry
    rw [hstep1, hauth, hres]
    unfold resolvedUserRef resolvedAssessmentRef
    cases hpr : env.profileRows with
    | error e1 =>
      cases har : env.assessRows with
      | error e2 => cases res <;> rfl
      | ok rows2 => cases rows2 <;> cases res <;> rfl
    | ok rows1 =>
      cases rows1 with
      | nil =>
        cases har : env.assessRows with
        | error e2 => cases res <;> rfl
        | ok rows2 => cases rows2 <;> cases res <;> rfl
      | cons p ps =>
        cases har : env.assessRows with
        | error e2 => cases res <;> rfl
        | ok rows2 => cases rows2 <;> cases res <;> rfl
  refine ⟨?_, ?_, ?_, ?_⟩
  · cases hia : env.insertAppt with
    | error m => rw [createAppointmentFor_writes, hbt _ hia]
    | ok u =>
      cases u
      rw [createAppointmentFor_writes, hbt _ hia]
  · intro hprof
    unfold resolvedUserRef
    rcases hprof with hp | ⟨e, hp⟩ <;> rw [hp]
  · intro hassess
    unfold resolvedAssessmentRef
    rcases hassess with ha | ⟨e, ha⟩ <;> rw [ha]
  · intro hok
    unfold createAppointmentFor
    rw [hbt _ hok]

/-- Profile lookup errors while the assessment lookup returns a row. -/
def envProfileFallback : BookingEnv :=
  { findHospital := Except.ok ["h7"], insertHospital := Except.ok [],
    authUser := Except.ok (some "user-9"), profileRows := Except.error "profile down",
    assessRows := Except.ok ["a1"], insertAppt := Except.ok () }

/-- Profile lookup returns a row while the assessment lookup errors. -/
def envAssessFallback : BookingEnv :=
  { findHospital := Except.ok ["h7"], insertHospital := Except.ok [],
    authUser := Except.ok (some "user-9"), profileRows := Except.ok ["p1"],
    assessRows := Except.error "assess down", insertAppt := Except.ok () }

/-- C8 (witness): the two mixed cases — a failing profile lookup with a
present assessment row resolves the raw user id while keeping that
row's reference, and a failing assessment lookup with a present profile
row resolves a null reference while keeping that profile id; both runs
report success. -/
theorem booking_lookup_fallbacks_witness :
    ((envProfileFallback.profileRows = Except.ok [] ∨
        ∃ e, envProfileFallback.profileRows = Except.error e) ∧
      resolvedUserRef envProfileFallback "user-9" = "user-9" ∧
      resolvedAssessmentRef envProfileFallback = some "a1" ∧
      (createAppointmentFor envProfileFallback hospW st0).state.message =
        some successMsg) ∧
    ((envAssessFallback.assessRows = Except.ok [] ∨
        ∃ e, envAssessFallback.assessRows = Except.error e) ∧
      resolvedAssessmentRef envAssessFallback = none ∧
      resolvedUserRef envAssessFallback "user-9" = "p1" ∧
      (createAppointmentFor envAssessFallback hospW st0).state.message =
        some successMsg) :=
  ⟨⟨Or.inr ⟨"profile down", rfl⟩,
      (booking_lookup_fallbacks envProfileFallback hospW st0 "user-9" []
          (some "h7") rfl rfl).2.1 (Or.inr ⟨"profile down", rfl⟩),
      rfl,
      (booking_lookup_fallbacks envProfileFallback hospW st0 "user-9" []
          (some "h7") rfl rfl).2.2.2 rfl⟩,
    ⟨Or.inr ⟨"assess down", rfl⟩,
      (booking_lookup_fallbacks envAssessFallback hospW st0 "user-9" []
          (some "h7") rfl rfl).2.2.1 (Or.inr ⟨"assess down", rfl⟩),
      rfl,
      (booking_lookup_fallbacks envAssessFallback hospW st0 "user-9" []
          (some "h7") rfl rfl).2.2.2 rfl⟩⟩

/-! ## Claim C9: upsert payload shape and merge-back of the emergency flag -/

/-- C9: every upsert batch is its chunk mapped through `payloadOf`, whose
codomain `HospitalPayload` has exactly the six sent fields — in
particular the payload is unchanged by the record's
emergency-availability flag — and every record that the merge takes
from the store carries `emergency_available` equal to the returned
value, defaulting to `false` when absent, never the local record's
value. -/
theorem upsert_payload_frame (uniq prev : List HospitalRow) (rows : List DbRow)
    (h : HospitalRow) (b : Bool) (h' : HospitalRow) :
    (∀ batch, batch ∈ upsertBatches uniq →
      ∃ c, c ∈ chunksOfSize 200 uniq.length uniq ∧ batch = c.map payloadOf) ∧
    payloadOf { h with emergency_available := b } = payloadOf h ∧
    (h' ∈ mergeRows prev rows →
      h' ∈ prev ∨ ∃ r, r ∈ rows ∧ h' = rowFromDb r ∧
        h'.emergency_available = r.emergency_available.getD false) := by
  refine ⟨?_, rfl, ?_⟩
  · intro batch hb
    obtain ⟨c, hc, hceq⟩ := List.mem_map.mp hb
    exact ⟨c, hc, hceq.symm⟩
  · intro hm
    rcases mem_mergeRows prev rows h' hm with hp | ⟨r, hr, heq⟩
    · exact Or.inl hp
    · exact Or.inr ⟨r, hr, heq, by rw [heq]; rfl⟩

def dbRowW : DbRow :=
  { id := "42", name := "S", address := none, latitude := 10, longitude := 20,
    phone := none, specialities := none, emergency_available := none }

/-- C9 (witness): merging one returned row over a local record with the
same key: the merged record is the store row's image with
`emergency_available = false` (absent in the returned row), regardless
of the local record. -/
theorem upsert_payload_frame_witness :
    payloadOf { hospW with emergency_available := true } = payloadOf hospW ∧
    (rowFromDb dbRowW ∈ [hospW] ∨ ∃ r, r ∈ [dbRowW] ∧
      rowFromDb dbRowW = rowFromDb r ∧
      (rowFromDb dbRowW).emergency_available =
        r.emergency_available.getD false) ∧
    (∃ c, c ∈ chunksOfSize 200 [hospW].length [hospW] ∧
      [payloadOf hospW] = c.map payloadOf) :=
  ⟨(upsert_payload_frame [hospW] [hospW] [dbRowW] hospW true (rowFromDb dbRowW)).2.1,
    (upsert_payload_frame [hospW] [hospW] [dbRowW] hospW true (rowFromDb dbRowW)).2.2
      (by decide),
    (upsert_payload_frame [hospW] [hospW] [dbRowW] hospW true (rowFromDb dbRowW)).1
      [payloadOf hospW] (by decide)⟩

/-! ## Claim C5: fallback when the store returns no rows -/

/-- C5: when the deduplicated input is non-empty and no chunk returns
any row (errors, non-array data or empty arrays), the exposed result of
the run is the deduplicated input itself, not the empty set. -/
theorem sync_fallback_on_no_rows (uniq : List HospitalRow)
    (outcomes : ℕ → ChunkOutcome) (_hne : uniq ≠ [])
    (hnr : ∀ j, j < (chunksOfSize 200 uniq.length uniq).length →
      noRows (outcomes j)) :
    syncResult [] uniq outcomes = uniq := by
  have hloop : runChunks outcomes (chunksOfSize 200 uniq.length uniq) 0 [] = [] := by
    apply runChunks_nil
    intro j hj
    have hz : 0 + j = j := by omega
    rw [hz]
    exact hnr j hj
  unfold syncResult
  rw [hloop]
  simp

def soloRec : HospitalRow := { name := "Solo", latitude := 1, longitude := 2 }

/-- C5 (witness): a single record whose only chunk's upsert errors is
re-exposed by the fallback. -/
theorem sync_fallback_on_no_rows_witness :
    ([soloRec] : List HospitalRow) ≠ [] ∧
    syncResult [] [soloRec] (fun _ => ChunkOutcome.err "upsert failed") = [soloRec] :=
  ⟨by decide,
    sync_fallback_on_no_rows [soloRec] (fun _ => ChunkOutcome.err "upsert failed")
      (by decide) (fun j hj => trivial)⟩

/-! ## Claim C1: partial chunk failure over three chunks -/

/-- An integer as a rational in normal form. -/
def intRat (n : ℤ) : ℚ := ⟨n, 1, one_ne_zero, Nat.coprime_one_right _⟩

def mkRec (i : ℕ) : HospitalRow :=
  { name := "H", latitude := intRat i, longitude := intRat 0 }

/-- 401 deduplicated records: three chunks of sizes 200, 200, 1. -/
def testUniq : List HospitalRow := (List.range 401).map mkRec

def tc1 : List HospitalRow := testUniq.take 200

def tc2 : List HospitalRow := (testUniq.drop 200).take 200

def tc3 : List HospitalRow := ((testUniq.drop 200).drop 200).take 200

def dbRow1 : DbRow :=
  { id := "901", name := "Store1", address := none, latitude := intRat 900,
    longitude := intRat 0, phone := none, specialities := none,
    emergency_available := none }

def dbRow3 : DbRow :=
  { id := "903", name := "Store3", address := none, latitude := intRat 901,
    longitude := intRat 0, phone := none, specialities := none,
    emergency_available := none }

/-- Chunk 1 returns a row, chunk 2 fails, chunk 3 returns a row. -/
def testOutcomes : ℕ → ChunkOutcome := fun k =>
  match k with
  | 0 => ChunkOutcome.ok (some [dbRow1])
  | 2 => ChunkOutcome.ok (some [dbRow3])
  | _ => ChunkOutcome.err "chunk upsert failed"

/-- The claim as stated: in a three-chunk run where chunk 2's upsert
fails and chunks 1 and 3 succeed, the exposed result contains the
store-returned rows of chunks 1 and 3 *and* the locally-normalized
records of chunk 2, and no input record's key is lost. -/
def claimC1 : Prop :=
  ∀ (uniq : List HospitalRow) (outcomes : ℕ → ChunkOutcome)
    (c1 c2 c3 : List HospitalRow) (rows1 rows3 : List DbRow) (e : String),
    chunksOfSize 200 uniq.length uniq = [c1, c2, c3] →
    outcomes 0 = ChunkOutcome.ok (some rows1) →
    outcomes 1 = ChunkOutcome.err e →
    outcomes 2 = ChunkOutcome.ok (some rows3) →
    (∀ r, r ∈ rows1 → rowFromDb r ∈ syncResult [] uniq outcomes) ∧
    (∀ r, r ∈ rows3 → rowFromDb r ∈ syncResult [] uniq outcomes) ∧
    (∀ h', h' ∈ c2 → h' ∈ syncResult [] uniq outcomes) ∧
    (∀ h', h' ∈ uniq →
      ∃ h2, h2 ∈ syncResult [] uniq outcomes ∧ toKey h2 = toKey h')

set_option maxRecDepth 100000

/-- C1 (counterexample): the claim is false — when chunks 1 and 3
return rows, the final fallback (`prev.length ? prev : uniqHospitals`)
never fires, so the failed chunk 2's records are simply dropped from
the exposed result: the first record of chunk 2 is not in it. -/
theorem reconcile_no_loss_claim_false : ¬claimC1 := by
  intro hc
  have hobt := hc testUniq testOutcomes tc1 tc2 tc3 [dbRow1] [dbRow3]
    "chunk upsert failed" (by decide) rfl rfl rfl
  have hmem := hobt.2.2.1 (mkRec 200) (by decide)
  exact absurd hmem (by decide)

/-- C1 (amended): the loop does continue past the failed chunk 2 —
chunk 3 is still upserted and merged — and the exposed result is
exactly the store-returned rows of chunks 1 and 3 merged in order; the
records of chunk 2 are not re-added (the deduplicated-input fallback
fires only when no chunk returned any rows, so they are lost in this
scenario). -/
theorem reconcile_partial_failure (uniq : List HospitalRow)
    (outcomes : ℕ → ChunkOutcome) (c1 c2 c3 : List HospitalRow)
    (rows1 rows3 : List DbRow) (e : String)
    (hchunks : chunksOfSize 200 uniq.length uniq = [c1, c2, c3])
    (h0 : outcomes 0 = ChunkOutcome.ok (some rows1))
    (h1 : outcomes 1 = ChunkOutcome.err e)
    (h2 : outcomes 2 = ChunkOutcome.ok (some rows3))
    (hr1 : rows1 ≠ []) :
    syncResult [] uniq outcomes = mergeRows (mergeRows [] rows1) rows3 := by
  have hrun : runChunks outcomes (chunksOfSize 200 uniq.length uniq) 0 [] =
      mergeRows (mergeRows [] rows1) rows3 := by
    rw [hchunks]
    exact runChunks_three outcomes c1 c2 c3 rows1 rows3 e [] h0 h1 h2
  unfold syncResult
  rw [hrun]
  have hne : mergeRows (mergeRows [] rows1) rows3 ≠ [] :=
    mergeRows_ne_nil_left _ _ (mergeRows_ne_nil_right [] rows1 hr1)
  rw [if_neg hne]

/-- C1 (witness): the concrete 401-record three-chunk run. -/
theorem reconcile_partial_failure_witness :
    chunksOfSize 200 testUniq.length testUniq = [tc1, tc2, tc3] ∧
    ([dbRow1] : List DbRow) ≠ [] ∧
    syncResult [] testUniq testOutcomes =
      mergeRows (mergeRows [] [dbRow1]) [dbRow3] :=
  ⟨by decide, by decide,
    reconcile_partial_failure testUniq testOutcomes tc1 tc2 tc3 [dbRow1] [dbRow3]
      "chunk upsert failed" (by decide) rfl rfl rfl (by decide)⟩
